import Mathlib

/-! Shared wire types (src/shared/types.ts). -/
inductive Severity where
  | low
  | medium
  | high
  | critical
deriving DecidableEq, Repr

/-!
Verification of the a2a-mcp PR-review-swarm orchestrator core.

Each TypeScript module relevant to the checked properties is shallowly
embedded as executable Lean definitions, keeping the source's names and
control flow. Network and clock effects are modelled by explicit oracle
parameters (fetch outcomes, thrown transport errors, tool responses,
timestamps); everything else is translated directly from the source.
-/
set_option maxRecDepth 4000

/-- Severity rank table from src/shared/types.ts (critical 4 ... low 1). -/
def SEVERITY_RANK : Severity → Nat
  | .critical => 4
  | .high => 3
  | .medium => 2
  | .low => 1

structure Finding where
  severity : Severity
  title : String
  evidence : String
  recommendation : String
  file : Option String := none
  line : Option Nat := none
deriving DecidableEq, Repr

structure ReviewResult where
  findings : List Finding
deriving DecidableEq, Repr

structure ToolCallResponse where
  ok : Bool
  stdout : String
  stderr : String
deriving DecidableEq, Repr

structure ToolRun where
  name : String
  ok : Bool
deriving DecidableEq, Repr

/-- Counts by severity, one key per severity as in the Record literal of
mergeFindings. -/
structure SeverityCounts where
  critical : Nat
  high : Nat
  medium : Nat
  low : Nat
deriving DecidableEq, Repr

structure MergedReviewResult where
  findings : List Finding
  toolRuns : List ToolRun
  bySeverity : SeverityCounts
deriving DecidableEq, Repr

/-- Substring containment (JavaScript String.prototype.includes) over the
character lists of the strings. -/
def listInfix (pat : List Char) : List Char → Bool
  | [] => pat.isEmpty
  | c :: rest => pat.isPrefixOf (c :: rest) || listInfix pat rest

def strContains (s pat : String) : Bool := listInfix pat.data s.data

/-- JavaScript String.prototype.toLowerCase, character by character. -/
def strToLower (s : String) : String := ⟨s.data.map Char.toLower⟩

namespace Merger

/-! Findings merger (src/orchestrator/merger.ts). -/

/-- Result of one agent invocation (src/orchestrator/invoker.ts,
InvokeResult). Optional fields model the TypeScript optional properties;
durationMs carries wall-clock timing, which is outside this model. -/
structure InvokeResult where
  agentName : String
  skillId : String
  findings : List Finding
  error : Option String := none
  retried : Option Bool := none
  durationMs : Option Nat := none
deriving DecidableEq, Repr

/-- JavaScript template rendering of finding.line with line || "" (a missing
or zero line renders as the empty string). -/
def lineStr (f : Finding) : String :=
  match f.line with
  | none => ""
  | some n => if n = 0 then "" else toString n

/-- JavaScript finding.file || "" (missing file renders as empty). -/
def fileStr (f : Finding) : String := f.file.getD ""

/-- findingSignature from merger.ts: title|file|line as one string. -/
def findingSignature (f : Finding) : String :=
  f.title ++ "|" ++ fileStr f ++ "|" ++ lineStr f

/-- Character-by-character lexicographic comparison of two strings. -/
def strCmp : List Char → List Char → Ordering
  | [], [] => .eq
  | [], _ :: _ => .lt
  | _ :: _, [] => .gt
  | c :: cs, d :: ds =>
    if c < d then .lt else if d < c then .gt else strCmp cs ds

/-- JavaScript a.localeCompare(b), modelled as the sign of lexicographic
string comparison. -/
def localeCompare (a b : String) : Int :=
  match strCmp a.data b.data with
  | .lt => -1
  | .eq => 0
  | .gt => 1

/-- JavaScript a.line || 0 used by the sort comparator. -/
def lineNum (f : Finding) : Nat := f.line.getD 0

/-- compareFindingsForSort from merger.ts: severity descending, then file,
line, title ascending. The local severityDiff, fileDiff and lineDiff
bindings of the source are inlined. -/
def compareFindingsForSort (a b : Finding) : Int :=
  if (SEVERITY_RANK b.severity : Int) - (SEVERITY_RANK a.severity : Int) ≠ 0 then
    (SEVERITY_RANK b.severity : Int) - (SEVERITY_RANK a.severity : Int)
  else if localeCompare (fileStr a) (fileStr b) ≠ 0 then
    localeCompare (fileStr a) (fileStr b)
  else if (lineNum a : Int) - (lineNum b : Int) ≠ 0 then
    (lineNum a : Int) - (lineNum b : Int)
  else localeCompare a.title b.title

/-- Deduplication loop of mergeFindings: walk the flattened findings,
keeping a finding only when its signature has not been seen. -/
def dedupeBySignature : List Finding → List String → List Finding
  | [], _ => []
  | f :: rest, seen =>
    let sig := findingSignature f
    if seen.contains sig then dedupeBySignature rest seen
    else f :: dedupeBySignature rest (sig :: seen)

def bumpSeverity (c : SeverityCounts) : Severity → SeverityCounts
  | .critical => { c with critical := c.critical + 1 }
  | .high => { c with high := c.high + 1 }
  | .medium => { c with medium := c.medium + 1 }
  | .low => { c with low := c.low + 1 }

/-- mergeFindings from merger.ts: flatten, dedupe by signature keeping the
first occurrence, sort with compareFindingsForSort, count by severity. -/
def mergeFindings (results : List InvokeResult) : MergedReviewResult :=
  let allFindings := results.flatMap (fun r => r.findings)
  let uniqueFindings := dedupeBySignature allFindings []
  let sorted :=
    uniqueFindings.insertionSort (fun a b => compareFindingsForSort a b ≤ 0)
  let bySeverity := sorted.foldl (fun acc f => bumpSeverity acc f.severity) ⟨0, 0, 0, 0⟩
  { findings := sorted, toolRuns := [], bySeverity := bySeverity }

/-- Sort key realising the comparator as a lexicographic order: severity rank
descending (encoded as 4 minus the rank), then file, line, title ascending. -/
def sortKey (f : Finding) : Lex (Nat × Lex (String × Lex (Nat × String))) :=
  toLex (4 - SEVERITY_RANK f.severity,
    toLex (fileStr f, toLex (lineNum f, f.title)))

/-- Ascending lexicographic order on the claimed triple (file with missing
as empty, line with missing as 0, title). -/
def tripleLe (a b : Finding) : Prop :=
  fileStr a < fileStr b ∨ (fileStr a = fileStr b ∧
    (lineNum a < lineNum b ∨ (lineNum a = lineNum b ∧ a.title ≤ b.title)))

/-- First counterexample finding: title a|b, file c. -/
def c2f1 : Finding :=
  { severity := .low, title := "a|b", evidence := "e1", recommendation := "r1",
    file := some "c", line := none }

/-- Second counterexample finding: title a, file b|c; its identity triple
differs from c2f1 but its rendered signature coincides. -/
def c2f2 : Finding :=
  { severity := .low, title := "a", evidence := "e2", recommendation := "r2",
    file := some "b|c", line := none }

def c2res : InvokeResult :=
  { agentName := "security-agent", skillId := "review.security",
    findings := [c2f1, c2f2] }

end Merger

namespace CircuitBreaker

/-! Circuit breaker (src/shared/circuit-breaker.ts). Date.now() is passed in
explicitly as an integer timestamp. -/

inductive CircuitState where
  | closed
  | «open»
  | half_open
deriving DecidableEq, Repr

structure CircuitBreakerConfig where
  failureThreshold : Nat
  cooldownMs : Int
deriving DecidableEq, Repr

structure CircuitStatus where
  state : CircuitState
  failures : Nat
  lastFailure : Int
  lastSuccess : Int
deriving DecidableEq, Repr

def DEFAULT_CONFIG : CircuitBreakerConfig :=
  { failureThreshold := 3, cooldownMs := 30000 }

/-- Fresh circuit created by getCircuit for an unseen endpoint. -/
def initialStatus : CircuitStatus :=
  { state := .closed, failures := 0, lastFailure := 0, lastSuccess := 0 }

/-- isAvailable from circuit-breaker.ts; returns the boolean result and the
(possibly mutated) status. The now argument models Date.now(). -/
def isAvailable (cfg : CircuitBreakerConfig) (now : Int) (s : CircuitStatus) :
    Bool × CircuitStatus :=
  match s.state with
  | .closed => (true, s)
  | .«open» =>
    if now - s.lastFailure ≥ cfg.cooldownMs then
      (true, { s with state := .half_open })
    else (false, s)
  | .half_open => (true, s)

/-- recordSuccess from circuit-breaker.ts. -/
def recordSuccess (now : Int) (s : CircuitStatus) : CircuitStatus :=
  { s with failures := 0, lastSuccess := now, state := .closed }

/-- recordFailure from circuit-breaker.ts. -/
def recordFailure (cfg : CircuitBreakerConfig) (now : Int) (s : CircuitStatus) :
    CircuitStatus :=
  let s := { s with failures := s.failures + 1, lastFailure := now }
  if s.state = .half_open then { s with state := .«open» }
  else if s.failures ≥ cfg.failureThreshold then { s with state := .«open» }
  else s

/-- Concrete half_open status used by the C10 witness. -/
def halfOpenStatus : CircuitStatus :=
  { state := .half_open, failures := 3, lastFailure := 1, lastSuccess := 0 }

end CircuitBreaker

namespace Invoker

/-! Agent invoker (src/orchestrator/invoker.ts). The network is modelled by
two oracles: attemptOracle gives the outcome of the i-th agent RPC attempt
(as a function of the accumulated additional context), toolOracle gives the
response of the j-th MCP tool call. Wall-clock timing (durationMs) and the
metrics collector are outside the model; circuit-breaker interaction is
recorded as an event list for the agent's endpoint. -/

def AGENT_TIMEOUT_MS : Nat := 5000

def MAX_RETRIES : Nat := 1

def MAX_NEGOTIATION_ROUNDS : Nat := 2

def TOOL_TIMEOUT_MS : Nat := 3000

/-- request_params of a NeedMoreInfoResponse; args and description are
forwarded opaquely to the tool server and do not influence the invoker's
control flow, so only the tool name is kept. -/
structure NeedMoreInfoParams where
  tool : Option String
deriving DecidableEq, Repr

/-- AgentResponse union from src/shared/types.ts: a ReviewResult or a
NeedMoreInfo request (discriminated by need_more_info). -/
inductive AgentResponse where
  | review (findings : List Finding)
  | needMoreInfo (request_type : String) (request_params : NeedMoreInfoParams)
deriving DecidableEq, Repr

/-- Outcome of one attemptInvoke call: a JSON-RPC result, a response-level
error (HTTP non-2xx or a JSON-RPC error object), or a thrown transport
exception carrying its message. -/
inductive AttemptOutcome where
  | response (r : AgentResponse)
  | rpcError (msg : String)
  | thrown (msg : String)
deriving DecidableEq, Repr

/-- isRetryableError from invoker.ts: lowercase the message and look for a
transient-failure marker substring. -/
def isRetryableError (msg : String) : Bool :=
  let m := strToLower msg
  strContains m "timeout" || strContains m "aborted" ||
  strContains m "econnrefused" || strContains m "econnreset" ||
  strContains m "network" || strContains m "unable to connect" ||
  strContains m "connection refused"

/-- isRetryableToolError from invoker.ts (same markers, applied to stderr). -/
def isRetryableToolError (stderr : String) : Bool :=
  let m := strToLower stderr
  strContains m "timeout" || strContains m "aborted" ||
  strContains m "econnrefused" || strContains m "econnreset" ||
  strContains m "network" || strContains m "unable to connect" ||
  strContains m "connection refused"

/-- Circuit-breaker calls made by invokeAgent for the agent's endpoint. -/
inductive BreakerEvent where
  | success
  | failure
deriving DecidableEq, Repr

/-- JavaScript object-spread update of additional_context: an existing key
keeps its position with the new value, a new key is appended. -/
def ctxSet (ctx : List (String × String)) (k v : String) : List (String × String) :=
  if ctx.any (fun p => p.1 == k) then
    ctx.map (fun p => if p.1 == k then (k, v) else p)
  else ctx ++ [(k, v)]

structure LoopSt where
  callIdx : Nat
  toolIdx : Nat
  retried : Bool
  ctx : List (String × String)
  events : List BreakerEvent
deriving DecidableEq, Repr

structure InvokeRun where
  result : Merger.InvokeResult
  agentCalls : Nat
  toolCalls : Nat
  events : List BreakerEvent
  ctx : List (String × String)
deriving DecidableEq, Repr

structure ToolLoopOut where
  result : ToolCallResponse
  toolIdx : Nat
  retried : Bool
deriving DecidableEq, Repr

/-- MCP tool retry loop of invokeAgent (toolAttempt from 0 to MAX_RETRIES):
call, stop on ok, stop on a non-retryable stderr or exhausted attempts,
otherwise mark retried and try again. -/
def toolLoop (toolOracle : Nat → String → ToolCallResponse) (toolName : String) :
    Nat → Nat → Bool → ToolLoopOut
  | attemptsLeft, toolIdx, retried =>
    let tr := toolOracle toolIdx toolName
    if tr.ok then ⟨tr, toolIdx + 1, retried⟩
    else if ¬ isRetryableToolError tr.stderr then ⟨tr, toolIdx + 1, retried⟩
    else match attemptsLeft with
      | 0 => ⟨tr, toolIdx + 1, retried⟩
      | k + 1 => toolLoop toolOracle toolName k (toolIdx + 1) true

/-- Result record assembled at each return site of invokeAgent. -/
def mkResult (agentName skillId : String) (findings : List Finding)
    (error : Option String) (retried : Bool) : Merger.InvokeResult :=
  { agentName := agentName, skillId := skillId, findings := findings,
    error := error, retried := some retried, durationMs := none }

/-- Outcome of the inner retry loop of one negotiation round. -/
inductive RoundOut where
  | done (run : InvokeRun)
  | nextRound (st : LoopSt)
deriving DecidableEq, Repr

/-- Inner retry loop of invokeAgent (attempt from 0 to MAX_RETRIES):
dispatch on the attempt outcome; a retryable thrown error with attempts
remaining retries within the round, everything else either returns or
advances the negotiation round. -/
def attemptLoop (attemptOracle : Nat → List (String × String) → AttemptOutcome)
    (toolOracle : Nat → String → ToolCallResponse) (agentName skillId : String) :
    Nat → LoopSt → RoundOut
  | retriesLeft, st =>
    match attemptOracle st.callIdx st.ctx with
    | .rpcError msg =>
      .done { result := mkResult agentName skillId [] (some msg) st.retried,
              agentCalls := st.callIdx + 1, toolCalls := st.toolIdx,
              events := st.events ++ [.failure], ctx := st.ctx }
    | .response (.review findings) =>
      .done { result := mkResult agentName skillId findings none st.retried,
              agentCalls := st.callIdx + 1, toolCalls := st.toolIdx,
              events := st.events ++ [.success], ctx := st.ctx }
    | .response (.needMoreInfo rt ps) =>
      match ps.tool with
      | some toolName =>
        let tl := toolLoop toolOracle toolName MAX_RETRIES st.toolIdx st.retried
        if tl.result.ok then
          .nextRound { st with callIdx := st.callIdx + 1, toolIdx := tl.toolIdx,
                               retried := tl.retried,
                               ctx := ctxSet st.ctx rt tl.result.stdout }
        else
          .done { result := mkResult agentName skillId []
                    (some (s!"Agent requested {rt} via {toolName} but tool call failed"
                      ++ (if tl.result.stderr ≠ "" then s!": {tl.result.stderr}" else "")))
                    tl.retried,
                  agentCalls := st.callIdx + 1, toolCalls := tl.toolIdx,
                  events := st.events ++ [.success], ctx := st.ctx }
      | none =>
        .done { result := mkResult agentName skillId []
                  (some s!"Agent requested {rt} but tool call failed") st.retried,
                agentCalls := st.callIdx + 1, toolCalls := st.toolIdx,
                events := st.events ++ [.success], ctx := st.ctx }
    | .thrown msg =>
      if isRetryableError msg then
        match retriesLeft with
        | k + 1 =>
          attemptLoop attemptOracle toolOracle agentName skillId k
            { st with callIdx := st.callIdx + 1, retried := true }
        | 0 =>
          .done { result := mkResult agentName skillId []
                    (some (if strContains msg "aborted"
                      then s!"Timeout after {AGENT_TIMEOUT_MS}ms" else msg)) st.retried,
                  agentCalls := st.callIdx + 1, toolCalls := st.toolIdx,
                  events := st.events ++ [.failure], ctx := st.ctx }
      else
        .done { result := mkResult agentName skillId []
                  (some (if strContains msg "aborted"
                    then s!"Timeout after {AGENT_TIMEOUT_MS}ms" else msg)) st.retried,
                agentCalls := st.callIdx + 1, toolCalls := st.toolIdx,
                events := st.events ++ [.failure], ctx := st.ctx }

/-- Outer negotiation loop of invokeAgent (round from 0 to
MAX_NEGOTIATION_ROUNDS - 1); when all rounds finish with the agent still
asking for more, record a circuit failure and report exhaustion. -/
def invokeLoop (attemptOracle : Nat → List (String × String) → AttemptOutcome)
    (toolOracle : Nat → String → ToolCallResponse) (agentName skillId : String) :
    Nat → LoopSt → InvokeRun
  | 0, st =>
    { result := mkResult agentName skillId []
        (some s!"Max negotiation rounds ({MAX_NEGOTIATION_ROUNDS}) exceeded") st.retried,
      agentCalls := st.callIdx, toolCalls := st.toolIdx,
      events := st.events ++ [.failure], ctx := st.ctx }
  | roundsLeft + 1, st =>
    match attemptLoop attemptOracle toolOracle agentName skillId MAX_RETRIES st with
    | .done run => run
    | .nextRound st2 => invokeLoop attemptOracle toolOracle agentName skillId roundsLeft st2

/-- invokeAgent from invoker.ts. The available flag is the result of the
initial circuitBreaker.isAvailable check on the agent's endpoint. -/
def invokeAgent (agentName skillId : String) (available : Bool)
    (attemptOracle : Nat → List (String × String) → AttemptOutcome)
    (toolOracle : Nat → String → ToolCallResponse) : InvokeRun :=
  if available then
    invokeLoop attemptOracle toolOracle agentName skillId MAX_NEGOTIATION_ROUNDS
      { callIdx := 0, toolIdx := 0, retried := false, ctx := [], events := [] }
  else
    { result := { agentName := agentName, skillId := skillId, findings := [],
                  error := some s!"Circuit breaker open for {agentName}" },
      agentCalls := 0, toolCalls := 0, events := [], ctx := [] }

/-- Constant oracles for the C3 witness: the agent always asks for the lint
tool and the tool always succeeds. -/
def c3AttemptOracle : Nat → List (String × String) → AttemptOutcome :=
  fun _ _ => .response (.needMoreInfo "lint_results" ⟨some "lint"⟩)

def c3ToolOracle : Nat → String → ToolCallResponse :=
  fun _ _ => ⟨true, "lint output", ""⟩

/-- Constant oracles for the C4 theorems: every attempt throws a transport
error whose message contains timeout but not aborted. -/
def c4AttemptOracle : Nat → List (String × String) → AttemptOutcome :=
  fun _ _ => .thrown "request timeout"

def c4ToolOracle : Nat → String → ToolCallResponse :=
  fun _ _ => ⟨false, "", ""⟩

end Invoker

namespace Discovery

/-! Agent discovery (src/orchestrator/discovery.ts, the revision with
protocol-version gating). The card fetch is an oracle from base URL to
outcome; a JSON field that is absent is modelled as the empty string or
empty list, which the source's truthiness checks reject exactly like a
missing field. -/

structure Skill where
  id : String
deriving DecidableEq, Repr

structure AgentCard where
  name : String
  version : String
  protocol_version : String
  endpoint : String
  skills : List Skill
deriving DecidableEq, Repr

structure DiscoveredAgent where
  baseUrl : String
  card : AgentCard
deriving DecidableEq, Repr

def SUPPORTED_PROTOCOL_VERSION : String := "1.0"

/-- JavaScript String.prototype.split with a one-character separator. -/
def splitOnChar (sep : Char) : List Char → List (List Char)
  | [] => [[]]
  | c :: rest =>
    if c = sep then [] :: splitOnChar sep rest
    else
      match splitOnChar sep rest with
      | [] => [[c]]
      | h :: t => (c :: h) :: t

def jsSplit (s : String) (sep : Char) : List String :=
  (splitOnChar sep s.data).map (fun cs => ⟨cs⟩)

/-- isProtocolCompatible from discovery.ts: the major components (index 0
of the dot-split) must be equal. -/
def isProtocolCompatible (agentVersion : String) : Bool :=
  let supportedMajor := (jsSplit SUPPORTED_PROTOCOL_VERSION '.').headD ""
  let agentMajor := (jsSplit agentVersion '.').headD ""
  supportedMajor == agentMajor

/-- Outcome of fetching base/.well-known/agent-card.json. -/
inductive FetchOutcome where
  | httpError (status : Nat)
  | parseError
  | card (c : AgentCard)
deriving DecidableEq, Repr

/-- Per-URL body of the Promise.allSettled closure in discoverAgents:
fetch, check HTTP ok, parse, validate required fields, protocol_version
presence, and protocol compatibility; each throw becomes an error value. -/
def fetchAgentCard (fetch : String → FetchOutcome) (baseUrl : String) :
    Except String DiscoveredAgent :=
  match fetch baseUrl with
  | .httpError status => .error s!"HTTP {status}"
  | .parseError => .error "JSON parse error"
  | .card card =>
    if card.name = "" ∨ card.endpoint = "" ∨ card.skills.length = 0 then
      .error "Invalid agent card: missing required fields"
    else if card.protocol_version = "" then
      .error "Invalid agent card: missing protocol_version"
    else if ¬ isProtocolCompatible card.protocol_version then
      .error s!"Incompatible protocol version: {card.protocol_version}"
    else .ok ⟨baseUrl, card⟩

/-- Collection loop of discoverAgents: push fulfilled results in input
order, log and drop rejected ones. -/
def collectFulfilled : List (Except String DiscoveredAgent) → List DiscoveredAgent
  | [] => []
  | .ok a :: rest => a :: collectFulfilled rest
  | .error _ :: rest => collectFulfilled rest

/-- discoverAgents from discovery.ts. -/
def discoverAgents (fetch : String → FetchOutcome) (baseUrls : List String) :
    List DiscoveredAgent :=
  collectFulfilled (baseUrls.map (fun u => fetchAgentCard fetch u))

/-- Acceptance predicate written from the claim's words: HTTP ok, parseable
JSON, name, endpoint and a non-empty skills list present, and a
protocol_version whose major component equals the supported major 1. -/
def specAccepts (fetch : String → FetchOutcome) (u : String) : Bool :=
  match fetch u with
  | .card c =>
    c.name != "" && c.endpoint != "" && !c.skills.isEmpty &&
      ((jsSplit c.protocol_version '.').headD "" == "1")
  | _ => false

/-- Reference discovery written from the claim's words: keep exactly the
accepted candidates, in input order, paired with their cards. -/
def discoverAgentsSpec (fetch : String → FetchOutcome) (baseUrls : List String) :
    List DiscoveredAgent :=
  baseUrls.filterMap (fun u =>
    match fetch u with
    | .card c => if specAccepts fetch u then some ⟨u, c⟩ else none
    | _ => none)

end Discovery

namespace ToolServer

/-! Tool server (src/tool-server/server.ts, src/tool-server/permissions.ts,
and the allowlist of tools.ts). Request bodies arrive as parse outcomes;
executeTool is an oracle. -/

/-- TOKEN_PERMISSIONS map from permissions.ts. -/
def TOKEN_PERMISSIONS : String → Option (List String) := fun token =>
  if token = "swarm-demo-token-2025" then some ["lint", "run_tests", "dep_audit"]
  else if token = "limited-token" then some ["lint"]
  else none

/-- Whitespace class of the regular expression used by extractBearerToken. -/
def isJsWs (c : Char) : Bool := c.isWhitespace

/-- Backtracking over the greedy whitespace run: try the longest run first,
shrinking until the remainder is a non-empty line (the dot of the pattern
does not match line breaks). -/
def bearerBacktrack (rest0 : List Char) : Nat → Option (List Char)
  | 0 => none
  | k + 1 =>
    let tail := rest0.drop (k + 1)
    if !tail.isEmpty && tail.all (fun c => c != Char.ofNat 10 && c != Char.ofNat 13) then
      some tail
    else bearerBacktrack rest0 k

/-- extractBearerToken from permissions.ts: match the header against the
case-insensitive pattern Bearer-whitespace-token and return the token. -/
def extractBearerToken (authHeader : Option String) : Option String :=
  match authHeader with
  | none => none
  | some s =>
    let cs := s.data
    if (cs.take 6).map Char.toLower = "bearer".data then
      let rest0 := cs.drop 6
      match bearerBacktrack rest0 (rest0.takeWhile isJsWs).length with
      | some tok => some ⟨tok⟩
      | none => none
    else none

/-- isValidToken from permissions.ts. -/
def isValidToken (token : String) : Bool := (TOKEN_PERMISSIONS token).isSome

/-- hasToolPermission from permissions.ts. -/
def hasToolPermission (token toolName : String) : Bool :=
  match TOKEN_PERMISSIONS token with
  | none => false
  | some allowed => allowed.contains toolName

/-- ALLOWED_TOOLS allowlist from tools.ts. -/
def ALLOWED_TOOLS : List String := ["lint", "run_tests", "dep_audit"]

/-- isValidTool from tools.ts. -/
def isValidTool (name : String) : Bool := ALLOWED_TOOLS.contains name

/-- Modelled from the spec: the UNAUTHORIZED member of JSON_RPC_ERROR_CODES
(-32001); the shared/types.ts revision defining it is not among the source
files, only its caller server.ts is. -/
def UNAUTHORIZED : Int := -32001

/-- Modelled from the spec: the FORBIDDEN member of JSON_RPC_ERROR_CODES
(-32003); the shared/types.ts revision defining it is not among the source
files, only its caller server.ts is. -/
def FORBIDDEN : Int := -32003

/-- Parse outcome of the request body: JSON parse failure, schema failure
(zod), or a validated ToolCallRequest with opaque args. -/
inductive BodyParse (α : Type) where
  | invalidJson
  | invalidSchema (message : String)
  | parsed (tool : String) (args : α)

/-- HTTP response of POST /call: either a ToolCallResponse-shaped JSON body
with optional error_code, or the plain errorResponse shape. -/
inductive CallResponse where
  | toolResp (status : Nat) (body : ToolCallResponse) (error_code : Option Int)
  | errorResp (status : Nat) (message : String)
deriving DecidableEq, Repr

/-- handleCall from server.ts: auth pipeline (bearer extraction, token
validity, body parse, tool permission, tool allowlist, execution) when auth
is enabled, and the parse-allowlist-execute flow when disabled. -/
def handleCall {α : Type} (authEnabled : Bool) (authHeader : Option String)
    (body : BodyParse α) (executeTool : String → α → ToolCallResponse) : CallResponse :=
  if authEnabled then
    match extractBearerToken authHeader with
    | none =>
      .toolResp 401 ⟨false, "", "Missing or invalid Authorization header"⟩ (some UNAUTHORIZED)
    | some token =>
      if ¬ isValidToken token then
        .toolResp 401 ⟨false, "", "Invalid token"⟩ (some UNAUTHORIZED)
      else
        match body with
        | .invalidJson => .errorResp 400 "Invalid JSON"
        | .invalidSchema msg => .errorResp 400 s!"Invalid request: {msg}"
        | .parsed tool args =>
          if ¬ hasToolPermission token tool then
            .toolResp 403
              ⟨false, "", s!"Token does not have permission to use tool: {tool}"⟩
              (some FORBIDDEN)
          else if ¬ isValidTool tool then
            .toolResp 400
              ⟨false, "", s!"Unknown tool: {tool}. Available tools: lint, run_tests, dep_audit"⟩
              none
          else .toolResp 200 (executeTool tool args) none
  else
    match body with
    | .invalidJson => .errorResp 400 "Invalid JSON"
    | .invalidSchema msg => .errorResp 400 s!"Invalid request: {msg}"
    | .parsed tool args =>
      if ¬ isValidTool tool then
        .toolResp 400
          ⟨false, "", s!"Unknown tool: {tool}. Available tools: lint, run_tests, dep_audit"⟩
          none
      else .toolResp 200 (executeTool tool args) none

end ToolServer

namespace AgentRpc

/-! Agent-side JSON-RPC handler (src/agents/base.ts, the revision that
validates the skill id in handleRpcRequest before execution) together with
the jsonRpcErrors helpers of shared/http.ts, whose content appears in
src/src/shared/schemas.ts. Parse and schema validation outcomes arrive as
an RpcBody value; the skill implementation is the analyze function of the
agent. Optional source parameters with defaults are passed explicitly. -/

structure ReviewInput where
  diff : String
  mcp_url : String
  additional_context : List (String × String) := []
deriving DecidableEq, Repr

structure InvokeParams where
  skill : String
  input : ReviewInput
deriving DecidableEq, Repr

/-- An agent as seen by the RPC handler: its supported skill id and its
analyze implementation (errors model thrown exceptions carrying their
message). -/
structure AgentImpl where
  skillId : String
  analyze : ReviewInput → Except String (List Finding)

/-- JSON_RPC_ERROR_CODES from src/shared/types.ts. -/
structure JsonRpcErrorCodes where
  PARSE_ERROR : Int
  INVALID_REQUEST : Int
  METHOD_NOT_FOUND : Int
  INVALID_PARAMS : Int
  INTERNAL_ERROR : Int
deriving DecidableEq, Repr

def JSON_RPC_ERROR_CODES : JsonRpcErrorCodes :=
  { PARSE_ERROR := -32700, INVALID_REQUEST := -32600, METHOD_NOT_FOUND := -32601,
    INVALID_PARAMS := -32602, INTERNAL_ERROR := -32603 }

/-- The two data payload shapes base.ts passes to invalidParams: the zod
issues object (kept opaque as its serialisation) and the object with a
message field used for the skill-id mismatch. -/
inductive RpcErrorData where
  | details (issues : String)
  | message (text : String)
deriving DecidableEq, Repr

/-- JsonRpcError from src/shared/types.ts: code, message, optional data. -/
structure JsonRpcErrorBody where
  code : Int
  message : String
  data : Option RpcErrorData := none
deriving DecidableEq, Repr

inductive RpcResponse where
  | success (id : String) (result : ReviewResult)
  | error (id : Option String) (e : JsonRpcErrorBody)
deriving DecidableEq, Repr

/-- jsonRpcError from shared/http.ts (in schemas.ts): build the error
envelope, attaching data only when present. -/
def jsonRpcError (id : Option String) (code : Int) (message : String)
    (data : Option RpcErrorData) : RpcResponse :=
  .error id { code := code, message := message, data := data }

/-- jsonRpcSuccess from shared/http.ts (in schemas.ts). -/
def jsonRpcSuccess (id : String) (result : ReviewResult) : RpcResponse :=
  .success id result

/-- jsonRpcErrors.parseError from shared/http.ts (in schemas.ts); the id
parameter defaults to null at the base.ts call site. -/
def parseError (id : Option String) : RpcResponse :=
  jsonRpcError id JSON_RPC_ERROR_CODES.PARSE_ERROR "Parse error" none

/-- jsonRpcErrors.invalidRequest from shared/http.ts (in schemas.ts). -/
def invalidRequest (id : Option String) : RpcResponse :=
  jsonRpcError id JSON_RPC_ERROR_CODES.INVALID_REQUEST "Invalid Request" none

/-- jsonRpcErrors.methodNotFound from shared/http.ts (in schemas.ts). -/
def methodNotFound (id : String) (m : String) : RpcResponse :=
  jsonRpcError (some id) JSON_RPC_ERROR_CODES.METHOD_NOT_FOUND
    s!"Method not found: {m}" none

/-- jsonRpcErrors.invalidParams from shared/http.ts (in schemas.ts). -/
def invalidParams (id : String) (details : Option RpcErrorData) : RpcResponse :=
  jsonRpcError (some id) JSON_RPC_ERROR_CODES.INVALID_PARAMS "Invalid params" details

/-- jsonRpcErrors.internalError from shared/http.ts (in schemas.ts); the
message falls back to Internal error when absent or empty, mirroring the
JavaScript or-fallback. -/
def internalError (id : String) (message : Option String) : RpcResponse :=
  jsonRpcError (some id) JSON_RPC_ERROR_CODES.INTERNAL_ERROR
    (match message with
      | some m => if m = "" then "Internal error" else m
      | none => "Internal error") none

inductive ParamsParse where
  | invalid (issues : String)
  | valid (p : InvokeParams)
deriving DecidableEq, Repr

/-- Stages of parsing the POST /rpc body: JSON parse failure, JSON-RPC
envelope schema failure, or an envelope with method and InvokeParams parse
outcome (an invalid parse carries the serialised zod issues). -/
inductive RpcBody where
  | invalidJson
  | invalidEnvelope
  | request (id : String) (m : String) (params : ParamsParse)
deriving DecidableEq, Repr

/-- handleRpcRequest from base.ts: parse, envelope check, method dispatch,
params schema check, skill-id check before execution (with the Unknown
skill message as data), then execution with thrown errors mapped to
internalError. -/
def handleRpcRequest (agent : AgentImpl) (body : RpcBody) : RpcResponse :=
  match body with
  | .invalidJson => parseError none
  | .invalidEnvelope => invalidRequest none
  | .request id m params =>
    if m ≠ "invoke" then methodNotFound id m
    else
      match params with
      | .invalid issues => invalidParams id (some (.details issues))
      | .valid p =>
        if p.skill ≠ agent.skillId then
          invalidParams id (some (.message
            ("Unknown skill: " ++ p.skill ++ ". This agent supports: " ++ agent.skillId)))
        else
          match agent.analyze p.input with
          | .ok findings => jsonRpcSuccess id ⟨findings⟩
          | .error msg => internalError id (some msg)

def codeOf : RpcResponse → Option Int
  | .success _ _ => none
  | .error _ e => some e.code

def c8Agent : AgentImpl :=
  { skillId := "review.security", analyze := fun _ => .ok [] }

def c8Params : InvokeParams :=
  { skill := "review.style", input := { diff := "", mcp_url := "http://127.0.0.1:9100" } }

end AgentRpc

namespace Detectors

/-! Security detectors (src/agents/security/detectors.ts). Each RegExp of
SECRET_PATTERNS is embedded as a recognizer over character lists; because
every quantified class in these patterns is disjoint from what follows it,
the greedy scan below decides exactly whether the JavaScript test() call
matches. Character classes follow the ASCII classes of the patterns, with
the whitespace class modelled by Char.isWhitespace. -/

def wsClass (c : Char) : Bool := c.isWhitespace

/-- Class [a-zA-Z0-9_-]. -/
def isWordDash (c : Char) : Bool := c.isAlphanum || c == '_' || c == '-'

/-- Classes [A-Z0-9] and [a-zA-Z0-9] under the case-insensitive flag. -/
def isAlnum (c : Char) : Bool := c.isAlphanum

def squote : Char := Char.ofNat 39

def dquote : Char := Char.ofNat 34

def isQuote (c : Char) : Bool := c == dquote || c == squote

/-- Consume a literal case-insensitively; give back the remainder. -/
def stripCaseless : List Char → List Char → Option (List Char)
  | [], cs => some cs
  | _ :: _, [] => none
  | l :: ls, c :: cs =>
    if c.toLower = l.toLower then stripCaseless ls cs else none

/-- Consume a literal case-sensitively; give back the remainder. -/
def stripExact : List Char → List Char → Option (List Char)
  | [], cs => some cs
  | _ :: _, [] => none
  | l :: ls, c :: cs => if c = l then stripExact ls cs else none

/-- Tail \s*[=:]\s*["']?(cls){minLen,} of the api-key, secret and aws
patterns (the trailing optional quote is always satisfiable). -/
def afterAssign (cls : Char → Bool) (minLen : Nat) (cs : List Char) : Bool :=
  match cs.dropWhile wsClass with
  | [] => false
  | c :: cs2 =>
    if c == '=' || c == ':' then
      let cs3 := cs2.dropWhile wsClass
      let cs4 := match cs3 with
        | q :: rest => if isQuote q then rest else cs3
        | [] => cs3
      (cs4.takeWhile cls).length ≥ minLen
    else false

/-- Tail \s*[=:]\s*["']([^"']{minLen,})["'] of the password pattern: the
maximal quote-free run must be long enough and be followed by a char
(necessarily a quote). -/
def quotedValueAfterAssign (minLen : Nat) (cs : List Char) : Bool :=
  match cs.dropWhile wsClass with
  | [] => false
  | c :: cs2 =>
    if c == '=' || c == ':' then
      match cs2.dropWhile wsClass with
      | q :: rest =>
        if isQuote q then
          let run := rest.takeWhile (fun c => !(isQuote c))
          decide (run.length ≥ minLen) && decide (run.length < rest.length)
        else false
      | [] => false
    else false

/-- Pattern (?:api[_-]?key|apikey)= ... with a 16-char word-dash value. -/
def apiKeyMatchAt (cs : List Char) : Bool :=
  match stripCaseless ("api".data) cs with
  | none => false
  | some cs1 =>
    (match stripCaseless ("key".data) cs1 with
      | some cs2 => afterAssign isWordDash 16 cs2
      | none => false) ||
    (match cs1 with
      | c :: cs1b =>
        if c == '_' || c == '-' then
          match stripCaseless ("key".data) cs1b with
          | some cs2 => afterAssign isWordDash 16 cs2
          | none => false
        else false
      | [] => false)

/-- Pattern (?:password|passwd|pwd) with a quoted 3-char value. -/
def passwordMatchAt (cs : List Char) : Bool :=
  (match stripCaseless ("password".data) cs with
    | some cs1 => quotedValueAfterAssign 3 cs1
    | none => false) ||
  (match stripCaseless ("passwd".data) cs with
    | some cs1 => quotedValueAfterAssign 3 cs1
    | none => false) ||
  (match stripCaseless ("pwd".data) cs with
    | some cs1 => quotedValueAfterAssign 3 cs1
    | none => false)

/-- Pattern (?:secret)= ... with a 16-char word-dash value. -/
def secretMatchAt (cs : List Char) : Bool :=
  match stripCaseless ("secret".data) cs with
  | some cs1 => afterAssign isWordDash 16 cs1
  | none => false

/-- Pattern -----BEGIN (RSA|DSA|EC|OPENSSH|PGP)?\s*PRIVATE KEY----- (case
sensitive). -/
def privateKeyMatchAt (cs : List Char) : Bool :=
  match stripExact ("-----BEGIN ".data) cs with
  | none => false
  | some cs1 =>
    let tailOk (r : List Char) : Bool :=
      (stripExact ("PRIVATE KEY-----".data) (r.dropWhile wsClass)).isSome
    (match stripExact ("RSA".data) cs1 with
      | some r => tailOk r | none => false) ||
    (match stripExact ("DSA".data) cs1 with
      | some r => tailOk r | none => false) ||
    (match stripExact ("EC".data) cs1 with
      | some r => tailOk r | none => false) ||
    (match stripExact ("OPENSSH".data) cs1 with
      | some r => tailOk r | none => false) ||
    (match stripExact ("PGP".data) cs1 with
      | some r => tailOk r | none => false) ||
    tailOk cs1

/-- Pattern (?:aws_access_key_id|aws_secret_access_key)= ... with a
16-char alphanumeric value (class [A-Z0-9] with the i flag). -/
def awsMatchAt (cs : List Char) : Bool :=
  (match stripCaseless ("aws_access_key_id".data) cs with
    | some cs1 => afterAssign isAlnum 16 cs1
    | none => false) ||
  (match stripCaseless ("aws_secret_access_key".data) cs with
    | some cs1 => afterAssign isAlnum 16 cs1
    | none => false)

/-- Pattern sk_(?:live|test)_[a-zA-Z0-9]{20,} (case sensitive). -/
def stripeMatchAt (cs : List Char) : Bool :=
  (match stripExact ("sk_live_".data) cs with
    | some r => decide ((r.takeWhile isAlnum).length ≥ 20)
    | none => false) ||
  (match stripExact ("sk_test_".data) cs with
    | some r => decide ((r.takeWhile isAlnum).length ≥ 20)
    | none => false)

/-- Pattern ghp_[a-zA-Z0-9]{36} (case sensitive). -/
def ghpMatchAt (cs : List Char) : Bool :=
  match stripExact ("ghp_".data) cs with
  | some r => decide ((r.takeWhile isAlnum).length ≥ 36)
  | none => false

/-- Pattern Bearer\s+[a-zA-Z0-9._-]{20,} (case insensitive). -/
def bearerMatchAt (cs : List Char) : Bool :=
  match stripCaseless ("bearer".data) cs with
  | none => false
  | some cs1 =>
    let ws := cs1.takeWhile wsClass
    if ws.isEmpty then false
    else
      let rest := cs1.drop ws.length
      decide ((rest.takeWhile
        (fun c => isAlnum c || c == '.' || c == '_' || c == '-')).length ≥ 20)

/-- RegExp.test semantics: a match may start at any position. -/
def matchAnywhere (p : List Char → Bool) : List Char → Bool
  | [] => p []
  | c :: rest => p (c :: rest) || matchAnywhere p rest

structure SecretPattern where
  test : String → Bool
  name : String
  severity : Severity
  recommendation : String

/-- SECRET_PATTERNS from detectors.ts, in source order. -/
def SECRET_PATTERNS : List SecretPattern := [
  ⟨fun s => matchAnywhere apiKeyMatchAt s.data, "API Key", .high,
    "Move API key to environment variable or secrets manager; rotate if exposed"⟩,
  ⟨fun s => matchAnywhere passwordMatchAt s.data, "Hardcoded password", .critical,
    "Move password to env var / secret manager; rotate leaked password immediately"⟩,
  ⟨fun s => matchAnywhere secretMatchAt s.data, "Hardcoded secret", .high,
    "Move secret to environment variable or secrets manager"⟩,
  ⟨fun s => matchAnywhere privateKeyMatchAt s.data, "Private key", .critical,
    "Remove private key from code; store securely and rotate if exposed"⟩,
  ⟨fun s => matchAnywhere awsMatchAt s.data, "AWS credential", .critical,
    "Use IAM roles or AWS Secrets Manager instead of hardcoded credentials"⟩,
  ⟨fun s => matchAnywhere stripeMatchAt s.data, "Stripe API key", .critical,
    "Move Stripe key to secrets manager; rotate the exposed key"⟩,
  ⟨fun s => matchAnywhere ghpMatchAt s.data, "GitHub personal access token", .critical,
    "Revoke the token and create a new one stored securely"⟩,
  ⟨fun s => matchAnywhere bearerMatchAt s.data, "Bearer token", .high,
    "Move token to environment variable; avoid committing auth tokens"⟩]

structure ParsedLine where
  file : String
  line : Nat
  content : String
deriving DecidableEq, Repr

/-- All-line predicate of the anchored dot-star captures: non-empty and
free of line breaks. -/
def plainLine (l : List Char) : Bool :=
  !l.isEmpty && l.all (fun c => c != Char.ofNat 10 && c != Char.ofNat 13)

/-- File header pattern +++ (?:b/)?(.+) with the backtracking of the
optional b/ prefix. -/
def matchFileHeader (line : String) : Option String :=
  match stripExact ("+++ ".data) line.data with
  | none => none
  | some rest =>
    match stripExact ("b/".data) rest with
    | some r2 =>
      if plainLine r2 then some ⟨r2⟩
      else if plainLine rest then some ⟨rest⟩ else none
    | none => if plainLine rest then some ⟨rest⟩ else none

def natOfDigits (ds : List Char) : Nat :=
  ds.foldl (fun acc c => acc * 10 + (c.toNat - 48)) 0

/-- Hunk header pattern @@ -d+(,d+)? +(d+), capturing the new-file start
line. -/
def matchHunkHeader (line : String) : Option Nat :=
  match stripExact ("@@ -".data) line.data with
  | none => none
  | some r1 =>
    let d1 := r1.takeWhile Char.isDigit
    if d1.isEmpty then none
    else
      let r2 := r1.drop d1.length
      let r3 := match r2 with
        | c :: rest =>
          if c = ',' then
            let d2 := rest.takeWhile Char.isDigit
            if d2.isEmpty then r2 else rest.drop d2.length
          else r2
        | [] => r2
      match r3 with
      | c :: c2 :: r4 =>
        if c = ' ' ∧ c2 = '+' then
          let d3 := r4.takeWhile Char.isDigit
          if d3.isEmpty then none else some (natOfDigits d3)
        else none
      | _ => none

def myStartsWith (l p : String) : Bool := p.data.isPrefixOf l.data

/-- Body of the parseAddedLines loop over the split lines, carrying the
current file and line counter. The line counter is a natural number; the
hunk start minus one is taken with truncated subtraction, which only
differs from the source for a hunk header claiming new start 0, below any
line number a unified diff produces. -/
def parseAddedLinesGo : List String → String → Nat → List ParsedLine
  | [], _, _ => []
  | l :: rest, currentFile, lineNumber =>
    match matchFileHeader l with
    | some f => parseAddedLinesGo rest f 0
    | none =>
      match matchHunkHeader l with
      | some n => parseAddedLinesGo rest currentFile (n - 1)
      | none =>
        if myStartsWith l "+" && !(myStartsWith l "+++") then
          ⟨currentFile, lineNumber + 1, ⟨l.data.drop 1⟩⟩ ::
            parseAddedLinesGo rest currentFile (lineNumber + 1)
        else if !(myStartsWith l "-") then
          parseAddedLinesGo rest currentFile (lineNumber + 1)
        else
          parseAddedLinesGo rest currentFile lineNumber

/-- parseAddedLines from detectors.ts. -/
def parseAddedLines (diff : String) : List ParsedLine :=
  parseAddedLinesGo (Discovery.jsSplit diff (Char.ofNat 10)) "" 0

/-- JavaScript String.prototype.trim over the character list. -/
def trimStr (s : String) : String :=
  ⟨((s.data.dropWhile wsClass).reverse.dropWhile wsClass).reverse⟩

/-- Evidence text of detectHardcodedSecrets including the 60-char mask. -/
def maskEvidence (content : String) : String :=
  let masked := if content.length > 60 then (⟨content.data.take 60⟩ : String) ++ "..." else content
  "Found in added line: \"" ++ trimStr masked ++ "\""

/-- detectHardcodedSecrets from detectors.ts: for every added line and
every pattern in order, emit a finding when the pattern matches. -/
def detectHardcodedSecrets (diff : String) : List Finding :=
  (parseAddedLines diff).flatMap (fun pl =>
    SECRET_PATTERNS.filterMap (fun sp =>
      if sp.test pl.content then
        some { severity := sp.severity, title := sp.name,
               evidence := maskEvidence pl.content,
               recommendation := sp.recommendation,
               file := some pl.file, line := some pl.line }
      else none))

/-- Single-quote character, kept out of string literals. -/
def sq : String := ⟨[Char.ofNat 39]⟩

/-- The diff of the claim: +API_KEY='test' then +PASSWORD='secret'. -/
def C9_DIFF : String :=
  "+API_KEY=" ++ sq ++ "test" ++ sq ++ "\n+PASSWORD=" ++ sq ++ "secret" ++ sq

/-- The one finding the detectors produce for C9_DIFF. -/
def c9Finding : Finding :=
  { severity := .critical, title := "Hardcoded password",
    evidence := "Found in added line: \"PASSWORD=" ++ sq ++ "secret" ++ sq ++ "\"",
    recommendation := "Move password to env var / secret manager; rotate leaked password immediately",
    file := some "", line := some 2 }

end Detectors

namespace Merger

theorem strCmp_spec : ∀ cs ds : List Char,
    (strCmp cs ds = .eq ↔ cs = ds) ∧ (strCmp cs ds = .lt ↔ List.Lex (· < ·) cs ds)
  | [], [] => by
    refine ⟨⟨fun _ => rfl, fun _ => rfl⟩, ?_⟩
    constructor
    · intro h; exact absurd h (by decide)
    · intro h; exact (nomatch h)
  | [], d :: ds => by
    constructor
    · constructor
      · intro h; exact absurd h (show Ordering.lt ≠ Ordering.eq by decide)
      · intro h; exact absurd h (by simp)
    · exact ⟨fun _ => List.Lex.nil, fun _ => rfl⟩
  | c :: cs, [] => by
    constructor
    · constructor
      · intro h; exact absurd h (show Ordering.gt ≠ Ordering.eq by decide)
      · intro h; exact absurd h (by simp)
    · constructor
      · intro h; exact absurd h (show Ordering.gt ≠ Ordering.lt by decide)
      · intro h; exact (nomatch h)
  | c :: cs, d :: ds => by
    have ih := strCmp_spec cs ds
    by_cases hlt : c < d
    · have hred : strCmp (c :: cs) (d :: ds) = .lt := by simp [strCmp, hlt]
      rw [hred]
      constructor
      · constructor
        · intro h; exact absurd h (by decide)
        · intro h; exact absurd (by injection h : c = d) (ne_of_lt hlt)
      · exact ⟨fun _ => List.Lex.rel hlt, fun _ => rfl⟩
    · by_cases hgt : d < c
      · have hred : strCmp (c :: cs) (d :: ds) = .gt := by simp [strCmp, hlt, hgt]
        rw [hred]
        constructor
        · constructor
          · intro h; exact absurd h (by decide)
          · intro h; exact absurd (by injection h : c = d) (ne_of_gt hgt)
        · constructor
          · intro h; exact absurd h (by decide)
          · intro h
            cases h with
            | cons h2 => exact absurd hgt (lt_irrefl _)
            | rel h2 => exact absurd h2 (asymm hgt)
      · have heq : c = d := le_antisymm (le_of_not_lt hgt) (le_of_not_lt hlt)
        subst heq
        have hred : strCmp (c :: cs) (c :: ds) = strCmp cs ds := by
          simp [strCmp]
        rw [hred]
        constructor
        · rw [ih.1]
          constructor
          · intro h; rw [h]
          · intro h; injection h
        · rw [ih.2]
          constructor
          · intro h; exact List.Lex.cons h
          · intro h
            cases h with
            | cons h2 => exact h2
            | rel h2 => exact absurd h2 (lt_irrefl _)

theorem strCmp_eq_iff (a b : String) : strCmp a.data b.data = .eq ↔ a = b :=
  (strCmp_spec a.data b.data).1.trans
    ⟨fun h => congrArg String.mk h, fun h => by rw [h]⟩

theorem strCmp_lt_iff (a b : String) : strCmp a.data b.data = .lt ↔ a < b :=
  (strCmp_spec a.data b.data).2.trans String.lt_iff_toList_lt.symm

theorem strCmp_gt_iff (a b : String) : strCmp a.data b.data = .gt ↔ b < a := by
  constructor
  · intro h
    rcases lt_trichotomy a b with hab | hab | hab
    · rw [← strCmp_lt_iff] at hab; simp [hab] at h
    · rw [← strCmp_eq_iff] at hab; simp [hab] at h
    · exact hab
  · intro h
    cases hc : strCmp a.data b.data with
    | lt => exact absurd ((strCmp_lt_iff a b).mp hc) (asymm h)
    | eq => exact absurd ((strCmp_eq_iff a b).mp hc) (ne_of_gt h)
    | gt => rfl

theorem localeCompare_of_lt {a b : String} (h : a < b) : localeCompare a b = -1 := by
  rw [localeCompare, (strCmp_lt_iff a b).mpr h]

theorem localeCompare_of_eq {a b : String} (h : a = b) : localeCompare a b = 0 := by
  rw [localeCompare, (strCmp_eq_iff a b).mpr h]

theorem localeCompare_of_gt {a b : String} (h : b < a) : localeCompare a b = 1 := by
  rw [localeCompare, (strCmp_gt_iff a b).mpr h]

theorem rank_le_four (s : Severity) : SEVERITY_RANK s ≤ 4 := by
  cases s <;> simp [SEVERITY_RANK]

theorem sortKey_le_iff (a b : Finding) :
    sortKey a ≤ sortKey b ↔
      (4 - SEVERITY_RANK a.severity < 4 - SEVERITY_RANK b.severity ∨
        (4 - SEVERITY_RANK a.severity = 4 - SEVERITY_RANK b.severity ∧
          (fileStr a < fileStr b ∨ (fileStr a = fileStr b ∧
            (lineNum a < lineNum b ∨
              (lineNum a = lineNum b ∧ a.title ≤ b.title)))))) := by
  simp [sortKey, Prod.Lex.le_iff]

theorem compare_le_iff (a b : Finding) :
    compareFindingsForSort a b ≤ 0 ↔ sortKey a ≤ sortKey b := by
  have ha4 := rank_le_four a.severity
  have hb4 := rank_le_four b.severity
  rw [sortKey_le_iff, compareFindingsForSort]
  rcases lt_trichotomy (SEVERITY_RANK a.severity) (SEVERITY_RANK b.severity) with hs | hs | hs
  · rw [if_pos
      (by omega : ((SEVERITY_RANK b.severity : Int) - (SEVERITY_RANK a.severity : Int)) ≠ 0)]
    apply iff_of_false
    · omega
    · rintro (h | ⟨h, _⟩) <;> omega
  · rw [if_neg
      (by omega : ¬ ((SEVERITY_RANK b.severity : Int) - (SEVERITY_RANK a.severity : Int)) ≠ 0)]
    rcases lt_trichotomy (fileStr a) (fileStr b) with hf | hf | hf
    · rw [localeCompare_of_lt hf, if_pos (by norm_num : ((-1 : Int)) ≠ 0)]
      apply iff_of_true
      · norm_num
      · exact Or.inr ⟨by omega, Or.inl hf⟩
    · rw [localeCompare_of_eq hf, if_neg (by norm_num : ¬ ((0 : Int)) ≠ 0)]
      rcases lt_trichotomy (lineNum a) (lineNum b) with hl | hl | hl
      · rw [if_pos (by omega : ((lineNum a : Int) - (lineNum b : Int)) ≠ 0)]
        apply iff_of_true
        · omega
        · exact Or.inr ⟨by omega, Or.inr ⟨hf, Or.inl hl⟩⟩
      · rw [if_neg (by omega : ¬ ((lineNum a : Int) - (lineNum b : Int)) ≠ 0)]
        rcases lt_trichotomy a.title b.title with ht | ht | ht
        · rw [localeCompare_of_lt ht]
          exact iff_of_true (by norm_num)
            (Or.inr ⟨by omega, Or.inr ⟨hf, Or.inr ⟨hl, le_of_lt ht⟩⟩⟩)
        · rw [localeCompare_of_eq ht]
          exact iff_of_true (by norm_num)
            (Or.inr ⟨by omega, Or.inr ⟨hf, Or.inr ⟨hl, le_of_eq ht⟩⟩⟩)
        · rw [localeCompare_of_gt ht]
          apply iff_of_false
          · norm_num
          · rintro (h | ⟨_, h | ⟨_, h | ⟨_, h⟩⟩⟩)
            · omega
            · exact absurd h (by rw [hf]; exact lt_irrefl _)
            · omega
            · exact absurd h (not_le_of_lt ht)
      · rw [if_pos (by omega : ((lineNum a : Int) - (lineNum b : Int)) ≠ 0)]
        apply iff_of_false
        · omega
        · rintro (h | ⟨_, h | ⟨h2, h | ⟨h3, _⟩⟩⟩)
          · omega
          · exact absurd h (by rw [hf]; exact lt_irrefl _)
          · omega
          · omega
    · rw [localeCompare_of_gt hf, if_pos (by norm_num : ((1 : Int)) ≠ 0)]
      apply iff_of_false
      · norm_num
      · rintro (h | ⟨_, h | ⟨h2, _⟩⟩)
        · omega
        · exact absurd h (asymm hf)
        · exact absurd h2 (ne_of_gt hf)
  · rw [if_pos
      (by omega : ((SEVERITY_RANK b.severity : Int) - (SEVERITY_RANK a.severity : Int)) ≠ 0)]
    apply iff_of_true
    · omega
    · exact Or.inl (by omega)

/-- C1: for every input sequence of InvokeResults, the findings list
returned by mergeFindings is sorted so that for any two adjacent findings
a, b, rank of a's severity is at least rank of b's severity, and when the
severities are equal the triples (file, line with missing treated as 0,
title) are in ascending lexicographic order. -/
theorem mergeFindings_sorted_adjacent (results : List InvokeResult) :
    ((mergeFindings results).findings).Chain' (fun a b =>
      SEVERITY_RANK b.severity ≤ SEVERITY_RANK a.severity ∧
      (SEVERITY_RANK a.severity = SEVERITY_RANK b.severity → tripleLe a b)) := by
  have hsorted : ((mergeFindings results).findings).Pairwise
      (fun a b => compareFindingsForSort a b ≤ 0) := by
    haveI : IsTotal Finding (fun a b => compareFindingsForSort a b ≤ 0) := by
      constructor
      intro a b
      rcases le_total (sortKey a) (sortKey b) with h | h
      · exact Or.inl ((compare_le_iff a b).mpr h)
      · exact Or.inr ((compare_le_iff b a).mpr h)
    haveI : IsTrans Finding (fun a b => compareFindingsForSort a b ≤ 0) := by
      constructor
      intro a b c ha hb
      exact (compare_le_iff a c).mpr
        (le_trans ((compare_le_iff a b).mp ha) ((compare_le_iff b c).mp hb))
    simp only [mergeFindings]
    exact List.sorted_insertionSort _ _
  refine List.Pairwise.chain' (hsorted.imp ?_)
  intro a b h
  have hk := (compare_le_iff a b).mp h
  rw [sortKey_le_iff] at hk
  have ha4 := rank_le_four a.severity
  have hb4 := rank_le_four b.severity
  rcases hk with hk | ⟨he, hrest⟩
  · exact ⟨by omega, fun heq => (by omega : False).elim⟩
  · exact ⟨by omega, fun _ => hrest⟩

theorem mem_dedupe_iff (l : List Finding) (seen : List String) (f : Finding) :
    f ∈ dedupeBySignature l seen ↔
      (findingSignature f ∉ seen ∧
        l.find? (fun g => findingSignature g == findingSignature f) = some f) := by
  induction l generalizing seen with
  | nil => simp [dedupeBySignature]
  | cons g rest ih =>
    rw [dedupeBySignature]
    by_cases hsig : (findingSignature g == findingSignature f) = true
    · have heqsig : findingSignature g = findingSignature f := eq_of_beq hsig
      rw [List.find?_cons_of_pos rest
        (show (fun x => findingSignature x == findingSignature f) g = true from hsig)]
      by_cases hseen : List.contains seen (findingSignature g) = true
      · rw [if_pos hseen, ih]
        have hmemf : findingSignature f ∈ seen := heqsig ▸ List.elem_iff.mp hseen
        constructor
        · rintro ⟨hnot, _⟩; exact absurd hmemf hnot
        · rintro ⟨hnot, _⟩; exact absurd hmemf hnot
      · rw [if_neg hseen]
        rw [List.mem_cons, ih]
        constructor
        · rintro (rfl | ⟨hnot, hfind⟩)
          · exact ⟨fun hmem => hseen (List.elem_iff.mpr (heqsig ▸ hmem)), rfl⟩
          · exact absurd (by rw [← heqsig]; exact List.mem_cons_self _ _) hnot
        · rintro ⟨hnot, heq⟩
          exact Or.inl (Option.some.inj heq).symm
    · have hne : findingSignature g ≠ findingSignature f := fun h => hsig (by rw [h]; exact beq_self_eq_true _)
      rw [List.find?_cons_of_neg rest
        (show ¬ (fun x => findingSignature x == findingSignature f) g = true from hsig)]
      by_cases hseen : List.contains seen (findingSignature g) = true
      · rw [if_pos hseen, ih]
      · rw [if_neg hseen]
        rw [List.mem_cons, ih]
        constructor
        · rintro (rfl | ⟨hnot, hfind⟩)
          · exact absurd rfl hne
          · exact ⟨fun hmem => hnot (List.mem_cons_of_mem _ hmem), hfind⟩
        · rintro ⟨hnot, hfind⟩
          refine Or.inr ⟨?_, hfind⟩
          simp only [List.mem_cons, not_or]
          exact ⟨fun h => hne h.symm, hnot⟩

/-- C2 (amended): a finding is in the merged output exactly when it is the
first, in flattening order, among the flattened input findings whose
rendered signature string title|file|line equals its own. Distinct identity
triples whose rendered signatures collide (possible when a field contains
the separator bar) are deduplicated against each other. -/
theorem mergeFindings_dedup_by_signature (results : List InvokeResult) (f : Finding) :
    f ∈ (mergeFindings results).findings ↔
      (results.flatMap fun r => r.findings).find?
        (fun g => findingSignature g == findingSignature f) = some f := by
  simp only [mergeFindings]
  rw [List.mem_insertionSort, mem_dedupe_iff]
  simp

/-- C2 counterexample: the two findings have distinct identity triples
(title, file, line) yet mergeFindings drops the second one, because both
render to the signature string a|b|c|. -/
theorem mergeFindings_distinct_triples_deduped :
    (c2f1.title, fileStr c2f1, c2f1.line) ≠ (c2f2.title, fileStr c2f2, c2f2.line) ∧
    findingSignature c2f1 = findingSignature c2f2 ∧
    (mergeFindings [c2res]).findings = [c2f1] := by
  refine ⟨by decide, by decide, by decide⟩

end Merger

namespace CircuitBreaker

/-- C5: from the initial closed state, three consecutive recordFailure calls
with the default config open the circuit; while open, isAvailable before
the 30000 ms cooldown returns false and leaves the state unchanged, at or
after the cooldown it returns true and moves to half_open; and
recordSuccess in any state resets failures to zero and closes the circuit. -/
theorem circuitBreaker_threshold_cooldown (t1 t2 t3 : Int) :
    (recordFailure DEFAULT_CONFIG t1 initialStatus).state = .closed ∧
    (recordFailure DEFAULT_CONFIG t2
      (recordFailure DEFAULT_CONFIG t1 initialStatus)).state = .closed ∧
    (recordFailure DEFAULT_CONFIG t3 (recordFailure DEFAULT_CONFIG t2
      (recordFailure DEFAULT_CONFIG t1 initialStatus))).state = .«open» ∧
    (∀ t : Int, t - t3 < 30000 →
      isAvailable DEFAULT_CONFIG t
          (recordFailure DEFAULT_CONFIG t3 (recordFailure DEFAULT_CONFIG t2
            (recordFailure DEFAULT_CONFIG t1 initialStatus))) =
        (false, recordFailure DEFAULT_CONFIG t3 (recordFailure DEFAULT_CONFIG t2
          (recordFailure DEFAULT_CONFIG t1 initialStatus)))) ∧
    (∀ t : Int, t - t3 ≥ 30000 →
      isAvailable DEFAULT_CONFIG t
          (recordFailure DEFAULT_CONFIG t3 (recordFailure DEFAULT_CONFIG t2
            (recordFailure DEFAULT_CONFIG t1 initialStatus))) =
        (true, { recordFailure DEFAULT_CONFIG t3 (recordFailure DEFAULT_CONFIG t2
          (recordFailure DEFAULT_CONFIG t1 initialStatus)) with state := .half_open })) ∧
    (∀ (s : CircuitStatus) (t : Int),
      (recordSuccess t s).failures = 0 ∧ (recordSuccess t s).state = .closed) := by
  have h1 : recordFailure DEFAULT_CONFIG t1 initialStatus =
      { state := .closed, failures := 1, lastFailure := t1, lastSuccess := 0 } := by
    simp [recordFailure, initialStatus, DEFAULT_CONFIG]
  have h2 : recordFailure DEFAULT_CONFIG t2
        (recordFailure DEFAULT_CONFIG t1 initialStatus) =
      { state := .closed, failures := 2, lastFailure := t2, lastSuccess := 0 } := by
    rw [h1]; simp [recordFailure, DEFAULT_CONFIG]
  have h3 : recordFailure DEFAULT_CONFIG t3 (recordFailure DEFAULT_CONFIG t2
        (recordFailure DEFAULT_CONFIG t1 initialStatus)) =
      { state := .«open», failures := 3, lastFailure := t3, lastSuccess := 0 } := by
    rw [h2]; simp [recordFailure, DEFAULT_CONFIG]
  refine ⟨by rw [h1], by rw [h2], by rw [h3], ?_, ?_, ?_⟩
  · intro t ht
    rw [h3]
    simp only [isAvailable, DEFAULT_CONFIG]
    rw [if_neg (by omega : ¬ t - t3 ≥ 30000)]
  · intro t ht
    rw [h3]
    simp only [isAvailable, DEFAULT_CONFIG]
    rw [if_pos (by omega : t - t3 ≥ 30000)]
  · intro s t
    exact ⟨rfl, rfl⟩

/-- C5 witness: the theorem instantiated at failure times 0, 1, 2; probe
at time 100 is rejected and at time 30002 admitted. -/
theorem circuitBreaker_threshold_cooldown_witness :
    (recordFailure DEFAULT_CONFIG 2 (recordFailure DEFAULT_CONFIG 1
      (recordFailure DEFAULT_CONFIG 0 initialStatus))).state = .«open» ∧
    isAvailable DEFAULT_CONFIG 100
        (recordFailure DEFAULT_CONFIG 2 (recordFailure DEFAULT_CONFIG 1
          (recordFailure DEFAULT_CONFIG 0 initialStatus))) =
      (false, recordFailure DEFAULT_CONFIG 2 (recordFailure DEFAULT_CONFIG 1
        (recordFailure DEFAULT_CONFIG 0 initialStatus))) ∧
    isAvailable DEFAULT_CONFIG 30002
        (recordFailure DEFAULT_CONFIG 2 (recordFailure DEFAULT_CONFIG 1
          (recordFailure DEFAULT_CONFIG 0 initialStatus))) =
      (true, { recordFailure DEFAULT_CONFIG 2 (recordFailure DEFAULT_CONFIG 1
        (recordFailure DEFAULT_CONFIG 0 initialStatus)) with state := .half_open }) ∧
    (recordSuccess 7 initialStatus).failures = 0 := by
  obtain ⟨-, -, h3, h4, h5, h6⟩ := circuitBreaker_threshold_cooldown 0 1 2
  exact ⟨h3, h4 100 (by decide), h5 30002 (by decide), (h6 initialStatus 7).1⟩

/-- C10: in the half_open state every isAvailable call returns true and
leaves the status unchanged (so probes are unbounded), and the state leaves
half_open only through recordSuccess (to closed) or recordFailure (to
open). -/
theorem circuitBreaker_half_open_probes (cfg : CircuitBreakerConfig)
    (s : CircuitStatus) (h : s.state = .half_open) :
    (∀ now : Int, isAvailable cfg now s = (true, s)) ∧
    (∀ now : Int, ∀ n : Nat,
      (fun st => (isAvailable cfg now st).2)^[n] s = s ∧
      ((isAvailable cfg now ((fun st => (isAvailable cfg now st).2)^[n] s)).1 = true)) ∧
    (∀ now : Int, (recordSuccess now s).state = .closed) ∧
    (∀ now : Int, (recordFailure cfg now s).state = .«open») := by
  have havail : ∀ now : Int, isAvailable cfg now s = (true, s) := by
    intro now
    simp only [isAvailable, h]
  refine ⟨havail, ?_, fun now => rfl, ?_⟩
  · intro now n
    have hiter : (fun st => (isAvailable cfg now st).2)^[n] s = s := by
      induction n with
      | zero => rfl
      | succ k ih =>
        rw [Function.iterate_succ_apply', ih, havail]
    exact ⟨hiter, by rw [hiter, havail]⟩
  · intro now
    simp [recordFailure, h]

/-- C10 witness: a concrete half_open status admits a probe at time 5 and
transitions as claimed. -/
theorem circuitBreaker_half_open_probes_witness :
    isAvailable DEFAULT_CONFIG 5 halfOpenStatus = (true, halfOpenStatus) ∧
    (recordSuccess 6 halfOpenStatus).state = .closed ∧
    (recordFailure DEFAULT_CONFIG 6 halfOpenStatus).state = .«open» := by
  obtain ⟨h1, -, h3, h4⟩ := circuitBreaker_half_open_probes DEFAULT_CONFIG
    halfOpenStatus rfl
  exact ⟨h1 5, h3 6, h4 6⟩

end CircuitBreaker

namespace Invoker

/-- C3: when every agent RPC attempt answers NeedMoreInfo with a tool set
and every tool call succeeds, invokeAgent calls the agent exactly twice
(MAX_NEGOTIATION_ROUNDS), records one circuit failure, and returns empty
findings with the exact exhaustion error text. -/
theorem invokeAgent_negotiation_exhaustion
    (agentName skillId : String)
    (attemptOracle : Nat → List (String × String) → AttemptOutcome)
    (toolOracle : Nat → String → ToolCallResponse)
    (hresp : ∀ i ctx, ∃ rt tool,
      attemptOracle i ctx = .response (.needMoreInfo rt ⟨some tool⟩))
    (htool : ∀ j t, (toolOracle j t).ok = true) :
    (invokeAgent agentName skillId true attemptOracle toolOracle).agentCalls = 2 ∧
    (invokeAgent agentName skillId true attemptOracle toolOracle).events = [.failure] ∧
    (invokeAgent agentName skillId true attemptOracle toolOracle).result.findings = [] ∧
    (invokeAgent agentName skillId true attemptOracle toolOracle).result.error =
      some "Max negotiation rounds (2) exceeded" := by
  obtain ⟨rt0, t0, h0⟩ := hresp 0 []
  have htl0 : toolLoop toolOracle t0 MAX_RETRIES 0 false = ⟨toolOracle 0 t0, 1, false⟩ := by
    rw [toolLoop.eq_def]
    simp [htool 0 t0]
  obtain ⟨rt1, t1, h1⟩ := hresp 1 (ctxSet [] rt0 (toolOracle 0 t0).stdout)
  have htl1 : toolLoop toolOracle t1 MAX_RETRIES 1 false = ⟨toolOracle 1 t1, 2, false⟩ := by
    rw [toolLoop.eq_def]
    simp [htool 1 t1]
  have ha0 : attemptLoop attemptOracle toolOracle agentName skillId MAX_RETRIES
      ⟨0, 0, false, [], []⟩ =
      .nextRound ⟨1, 1, false, ctxSet [] rt0 (toolOracle 0 t0).stdout, []⟩ := by
    rw [attemptLoop]
    simp [h0, htl0, htool 0 t0]
  have ha1 : attemptLoop attemptOracle toolOracle agentName skillId MAX_RETRIES
      ⟨1, 1, false, ctxSet [] rt0 (toolOracle 0 t0).stdout, []⟩ =
      .nextRound ⟨2, 2, false,
        ctxSet (ctxSet [] rt0 (toolOracle 0 t0).stdout) rt1 (toolOracle 1 t1).stdout, []⟩ := by
    rw [attemptLoop]
    simp [h1, htl1, htool 1 t1]
  have hstep : ∀ (n : Nat) (st st2 : LoopSt),
      attemptLoop attemptOracle toolOracle agentName skillId MAX_RETRIES st = .nextRound st2 →
      invokeLoop attemptOracle toolOracle agentName skillId (n + 1) st =
        invokeLoop attemptOracle toolOracle agentName skillId n st2 := by
    intro n st st2 h
    conv_lhs => rw [invokeLoop]
    rw [h]
  have hfinal : invokeAgent agentName skillId true attemptOracle toolOracle =
      invokeLoop attemptOracle toolOracle agentName skillId 0
        ⟨2, 2, false,
          ctxSet (ctxSet [] rt0 (toolOracle 0 t0).stdout) rt1 (toolOracle 1 t1).stdout, []⟩ := by
    rw [invokeAgent]
    rw [if_pos rfl]
    exact (hstep 1 _ _ ha0).trans (hstep 0 _ _ ha1)
  rw [hfinal]
  rw [invokeLoop]
  exact ⟨rfl, rfl, rfl, rfl⟩

/-- C3 witness: the exhaustion theorem applied to concrete oracles. -/
theorem invokeAgent_negotiation_exhaustion_witness :
    (invokeAgent "security-agent" "review.security" true c3AttemptOracle c3ToolOracle).agentCalls = 2 ∧
    (invokeAgent "security-agent" "review.security" true c3AttemptOracle c3ToolOracle).events = [.failure] ∧
    (invokeAgent "security-agent" "review.security" true c3AttemptOracle c3ToolOracle).result.findings = [] ∧
    (invokeAgent "security-agent" "review.security" true c3AttemptOracle c3ToolOracle).result.error =
      some "Max negotiation rounds (2) exceeded" :=
  invokeAgent_negotiation_exhaustion "security-agent" "review.security"
    c3AttemptOracle c3ToolOracle
    (fun _ _ => ⟨"lint_results", "lint", rfl⟩)
    (fun _ _ => rfl)

/-- C4 (amended): when both attempts of the single negotiation round throw
retryable transport errors, exactly one retry happens (retried = true, two
agent calls), one circuit failure is recorded, and the reported error is
the literal Timeout text exactly when the final message contains the
case-sensitive substring aborted; any other retryable message (for example
one containing only timeout) is reported verbatim. -/
theorem invokeAgent_retryable_exhaustion
    (agentName skillId m0 m1 : String)
    (attemptOracle : Nat → List (String × String) → AttemptOutcome)
    (toolOracle : Nat → String → ToolCallResponse)
    (h0 : attemptOracle 0 [] = .thrown m0)
    (h1 : attemptOracle 1 [] = .thrown m1)
    (hr0 : isRetryableError m0 = true)
    (hr1 : isRetryableError m1 = true) :
    (invokeAgent agentName skillId true attemptOracle toolOracle).agentCalls = 2 ∧
    (invokeAgent agentName skillId true attemptOracle toolOracle).result.retried = some true ∧
    (invokeAgent agentName skillId true attemptOracle toolOracle).events = [.failure] ∧
    (invokeAgent agentName skillId true attemptOracle toolOracle).result.error =
      some (if strContains m1 "aborted" then "Timeout after 5000ms" else m1) := by
  have ha : attemptLoop attemptOracle toolOracle agentName skillId MAX_RETRIES
      ⟨0, 0, false, [], []⟩ =
      .done { result := mkResult agentName skillId []
                (some (if strContains m1 "aborted"
                  then s!"Timeout after {AGENT_TIMEOUT_MS}ms" else m1)) true,
              agentCalls := 2, toolCalls := 0,
              events := [.failure], ctx := [] } := by
    rw [attemptLoop]
    rw [show (⟨0, 0, false, [], []⟩ : LoopSt).callIdx = 0 from rfl]
    rw [show (⟨0, 0, false, [], []⟩ : LoopSt).ctx = [] from rfl]
    rw [h0]
    simp only [hr0, if_true]
    show attemptLoop attemptOracle toolOracle agentName skillId 0
        ⟨1, 0, true, [], []⟩ = _
    rw [attemptLoop]
    rw [show (⟨1, 0, true, [], []⟩ : LoopSt).callIdx = 1 from rfl]
    rw [show (⟨1, 0, true, [], []⟩ : LoopSt).ctx = [] from rfl]
    rw [h1]
    simp only [hr1, if_true]
    rfl
  have hfinal : invokeAgent agentName skillId true attemptOracle toolOracle =
      { result := mkResult agentName skillId []
          (some (if strContains m1 "aborted"
            then s!"Timeout after {AGENT_TIMEOUT_MS}ms" else m1)) true,
        agentCalls := 2, toolCalls := 0,
        events := [.failure], ctx := [] } := by
    rw [invokeAgent]
    rw [if_pos rfl]
    show invokeLoop attemptOracle toolOracle agentName skillId (1 + 1)
        ⟨0, 0, false, [], []⟩ = _
    conv_lhs => rw [invokeLoop]
    rw [ha]
  rw [hfinal]
  refine ⟨rfl, rfl, rfl, ?_⟩
  have : (s!"Timeout after {AGENT_TIMEOUT_MS}ms") = "Timeout after 5000ms" := rfl
  rw [this]
  rfl

/-- C4 witness: the amended theorem applied to the concrete oracles. -/
theorem invokeAgent_retryable_exhaustion_witness :
    (invokeAgent "security-agent" "review.security" true c4AttemptOracle c4ToolOracle).agentCalls = 2 ∧
    (invokeAgent "security-agent" "review.security" true c4AttemptOracle c4ToolOracle).result.retried = some true ∧
    (invokeAgent "security-agent" "review.security" true c4AttemptOracle c4ToolOracle).events = [.failure] ∧
    (invokeAgent "security-agent" "review.security" true c4AttemptOracle c4ToolOracle).result.error =
      some (if strContains "request timeout" "aborted" then "Timeout after 5000ms"
        else "request timeout") :=
  invokeAgent_retryable_exhaustion "security-agent" "review.security"
    "request timeout" "request timeout" c4AttemptOracle c4ToolOracle rfl rfl
    (by decide) (by decide)

/-- C4 counterexample: with every attempt throwing the retryable message
request timeout (a timeout cause), the retry and circuit behaviour of the
claim holds but the returned error is the message verbatim, not the literal
Timeout after 5000ms, because the source only rewrites messages containing
the case-sensitive substring aborted. -/
theorem invokeAgent_timeout_text_counterexample :
    (∀ i ctx, ∃ m, c4AttemptOracle i ctx = .thrown m ∧ isRetryableError m = true) ∧
    strContains (strToLower "request timeout") "timeout" = true ∧
    (invokeAgent "security-agent" "review.security" true c4AttemptOracle c4ToolOracle).result.retried = some true ∧
    (invokeAgent "security-agent" "review.security" true c4AttemptOracle c4ToolOracle).result.error =
      some "request timeout" ∧
    (some "request timeout" : Option String) ≠ some "Timeout after 5000ms" := by
  refine ⟨fun i ctx => ⟨"request timeout", rfl, by decide⟩, by decide, by decide, by decide, by decide⟩

end Invoker

namespace Discovery

theorem strBeq_comm (a b : String) : (a == b) = (b == a) := by
  by_cases h : a = b
  · rw [h]
  · have h2 : ¬ b = a := fun e => h e.symm
    simp [h, h2]

theorem fetchAgentCard_vs_spec (fetch : String → FetchOutcome) (u : String) :
    (match fetchAgentCard fetch u with
      | .ok a => some a
      | .error _ => none) =
    (match fetch u with
      | .card c => if specAccepts fetch u then some (⟨u, c⟩ : DiscoveredAgent) else none
      | _ => none) := by
  cases hf : fetch u with
  | httpError status => simp [fetchAgentCard, hf]
  | parseError => simp [fetchAgentCard, hf]
  | card c =>
    simp only [fetchAgentCard, specAccepts, hf]
    by_cases h1 : c.name = ""
    · simp [h1]
    · by_cases h2 : c.endpoint = ""
      · simp [h1, h2]
      · by_cases h3 : c.skills.length = 0
        · have hsk : c.skills = [] := List.length_eq_zero.mp h3
          simp [h1, h2, h3, hsk]
        · have hne : ¬ (c.name = "" ∨ c.endpoint = "" ∨ c.skills.length = 0) := by
            simp [h1, h2, h3]
          have hsk : c.skills ≠ [] := fun h => h3 (by rw [h]; rfl)
          rw [if_neg hne]
          by_cases h4 : c.protocol_version = ""
          · rw [if_pos h4]
            have hcond : ¬ ((jsSplit c.protocol_version '.').head?.getD "" = "1") := by
              rw [h4]; decide
            simp [h1, h2, h3, hsk, hcond]
          · rw [if_neg h4]
            have hmaj : isProtocolCompatible c.protocol_version =
                ((jsSplit c.protocol_version '.').headD "" == "1") := by
              show (((jsSplit SUPPORTED_PROTOCOL_VERSION '.').headD "") ==
                (jsSplit c.protocol_version '.').headD "") = _
              rw [show (jsSplit SUPPORTED_PROTOCOL_VERSION '.').headD "" = "1" from rfl]
              exact strBeq_comm _ _
            by_cases h5 : isProtocolCompatible c.protocol_version = true
            · rw [if_neg (by simp [h5])]
              rw [h5] at hmaj
              rw [List.headD_eq_head?_getD] at hmaj
              have hv : (jsSplit c.protocol_version '.').head?.getD "" = "1" :=
                eq_of_beq hmaj.symm
              simp [h1, h2, h3, hsk, hv]
            · have h5f : isProtocolCompatible c.protocol_version = false := by
                simpa using h5
              rw [if_pos (by simp [h5f])]
              rw [h5f] at hmaj
              rw [List.headD_eq_head?_getD] at hmaj
              have hv : ¬ ((jsSplit c.protocol_version '.').head?.getD "" = "1") :=
                ne_of_beq_false hmaj.symm
              simp [hv]

/-- C6: discoverAgents returns exactly the candidates accepted by the
claim's predicate, in input order; a major mismatch such as 2.0 or a
missing protocol_version is dropped while a minor mismatch such as 1.5 is
accepted. -/
theorem discoverAgents_protocol_filter (fetch : String → FetchOutcome)
    (baseUrls : List String) :
    discoverAgents fetch baseUrls = discoverAgentsSpec fetch baseUrls ∧
    isProtocolCompatible "2.0" = false ∧
    isProtocolCompatible "1.5" = true ∧
    isProtocolCompatible "" = false := by
  refine ⟨?_, by decide, by decide, by decide⟩
  induction baseUrls with
  | nil => rfl
  | cons u rest ih =>
    have hstep := fetchAgentCard_vs_spec fetch u
    simp only [discoverAgents, discoverAgentsSpec, List.map, List.filterMap_cons] at *
    cases hfc : fetchAgentCard fetch u with
    | ok a =>
      rw [hfc] at hstep
      rw [collectFulfilled, ← hstep]
      rw [ih]
    | error e =>
      rw [hfc] at hstep
      rw [collectFulfilled, ← hstep]
      rw [ih]

end Discovery

namespace ToolServer

theorem isPrefixOf_append {pat l : List Char} (b : List Char)
    (h : pat.isPrefixOf l = true) : pat.isPrefixOf (l ++ b) = true := by
  rw [List.isPrefixOf_iff_prefix] at h ⊢
  exact h.trans (List.prefix_append l b)

theorem listInfix_nil_pat (l : List Char) : listInfix [] l = true := by
  induction l with
  | nil => rfl
  | cons c rest ih => simp [listInfix, ih, List.isPrefixOf]

theorem listInfix_append_left {pat a : List Char} (b : List Char)
    (h : listInfix pat a = true) : listInfix pat (a ++ b) = true := by
  induction a with
  | nil =>
    have hp : pat = [] := by simpa [listInfix] using h
    rw [hp]
    exact listInfix_nil_pat b
  | cons c rest ih =>
    rw [List.cons_append, listInfix]
    rw [listInfix] at h
    rcases Bool.or_eq_true_iff.mp h with hpre | hrest
    · exact Bool.or_eq_true_iff.mpr (Or.inl (isPrefixOf_append b hpre))
    · exact Bool.or_eq_true_iff.mpr (Or.inr (ih hrest))

theorem strContains_append_left (a b pat : String)
    (h : strContains a pat = true) : strContains (a ++ b) pat = true := by
  rw [strContains] at h ⊢
  rw [show (a ++ b).data = a.data ++ b.data from rfl]
  exact listInfix_append_left b.data h

/-- C7: with auth enabled, a well-formed body, and a valid bearer token, a
tool the token is not permitted to use yields HTTP 403 with ok false,
error_code -32003 and a stderr containing permission; a permitted and
existing tool yields HTTP 200 with the handler's ToolCallResponse. -/
theorem handleCall_permission_gate {α : Type}
    (executeToolFn : String → α → ToolCallResponse) (args : α)
    (authHeader : Option String) (token tool : String)
    (htok : extractBearerToken authHeader = some token)
    (hval : isValidToken token = true) :
    (hasToolPermission token tool = false →
      handleCall true authHeader (.parsed tool args) executeToolFn =
        .toolResp 403
          ⟨false, "", "Token does not have permission to use tool: " ++ tool⟩
          (some (-32003)) ∧
      strContains ("Token does not have permission to use tool: " ++ tool)
        "permission" = true) ∧
    (hasToolPermission token tool = true → isValidTool tool = true →
      handleCall true authHeader (.parsed tool args) executeToolFn =
        .toolResp 200 (executeToolFn tool args) none) := by
  constructor
  · intro hperm
    constructor
    · simp [handleCall, htok, hval, hperm, FORBIDDEN, toString]
    · exact strContains_append_left _ tool "permission" (by decide)
  · intro hperm hvalid
    simp [handleCall, htok, hval, hperm, hvalid]

/-- C7 witness: token limited-token with tool run_tests is rejected with
403 and with tool lint is executed with 200. -/
theorem handleCall_permission_gate_witness :
    handleCall true (some "Bearer limited-token")
        (.parsed "run_tests" ()) (fun _ _ => ⟨true, "out", ""⟩) =
      .toolResp 403
        ⟨false, "", "Token does not have permission to use tool: run_tests"⟩
        (some (-32003)) ∧
    strContains "Token does not have permission to use tool: run_tests"
      "permission" = true ∧
    handleCall true (some "Bearer limited-token")
        (.parsed "lint" ()) (fun _ _ => ⟨true, "out", ""⟩) =
      .toolResp 200 ⟨true, "out", ""⟩ none := by
  have h1 := (handleCall_permission_gate (fun _ _ => (⟨true, "out", ""⟩ : ToolCallResponse))
    () (some "Bearer limited-token") "limited-token" "run_tests"
    (by decide) (by decide)).1 (by decide)
  have h2 := (handleCall_permission_gate (fun _ _ => (⟨true, "out", ""⟩ : ToolCallResponse))
    () (some "Bearer limited-token") "limited-token" "lint"
    (by decide) (by decide)).2 (by decide) (by decide)
  exact ⟨h1.1, h1.2, h2⟩

end ToolServer

namespace AgentRpc

/-- C8: a well-formed invoke request whose skill differs from the agent's
supported skill id is answered with the Invalid params error -32602 (with
the Unknown skill message as data), never with the Internal error -32603. -/
theorem handleRpcRequest_unknown_skill (agent : AgentImpl) (id : String)
    (p : InvokeParams) (h : p.skill ≠ agent.skillId) :
    handleRpcRequest agent (.request id "invoke" (.valid p)) =
      invalidParams id (some (.message
        ("Unknown skill: " ++ p.skill ++ ". This agent supports: " ++ agent.skillId))) ∧
    codeOf (handleRpcRequest agent (.request id "invoke" (.valid p))) = some (-32602) ∧
    codeOf (handleRpcRequest agent (.request id "invoke" (.valid p))) ≠ some (-32603) := by
  have hmain : handleRpcRequest agent (.request id "invoke" (.valid p)) =
      invalidParams id (some (.message
        ("Unknown skill: " ++ p.skill ++ ". This agent supports: " ++ agent.skillId))) := by
    rw [handleRpcRequest]
    rw [if_neg (by simp)]
    rw [if_pos h]
  refine ⟨hmain, by rw [hmain]; rfl, ?_⟩
  rw [hmain]
  intro hc
  simp [invalidParams, jsonRpcError, codeOf, JSON_RPC_ERROR_CODES] at hc

/-- C8 witness: a security agent asked for the review.style skill answers
-32602. -/
theorem handleRpcRequest_unknown_skill_witness :
    handleRpcRequest c8Agent (.request "req-1" "invoke" (.valid c8Params)) =
      invalidParams "req-1" (some (.message
        "Unknown skill: review.style. This agent supports: review.security")) ∧
    codeOf (handleRpcRequest c8Agent (.request "req-1" "invoke" (.valid c8Params))) =
      some (-32602) := by
  have h := handleRpcRequest_unknown_skill c8Agent "req-1" c8Params (by decide)
  exact ⟨h.1, h.2.1⟩

end AgentRpc

namespace Detectors

/-- C9 counterexample: on the claimed diff the secret detection returns a
single finding, so it does not return at least two findings and none of
them is titled API Key; the api-key pattern requires a value of at least 16
word characters and test has only 4. -/
theorem detectors_spec_diff_counterexample :
    (detectHardcodedSecrets C9_DIFF).length = 1 ∧
    ¬ ((detectHardcodedSecrets C9_DIFF).length ≥ 2) ∧
    (∀ f ∈ detectHardcodedSecrets C9_DIFF, f.title ≠ "API Key") := by
  refine ⟨by decide, by decide, by decide⟩

/-- C9 (amended): on the claimed diff the secret detection returns exactly
one finding, titled Hardcoded password with severity critical at line 2;
no API Key finding is produced because the api-key pattern demands a
16-character value. -/
theorem detectors_spec_diff_findings :
    detectHardcodedSecrets C9_DIFF = [c9Finding] := by decide

end Detectors
